import Mathlib

/-!
Shallow embedding of the work-partitioning dispatcher in
tensorflow/lite/kernels/internal/optimized/depthwiseconv_multithread.h.

All integer quantities in the source are non-negative C++ ints (dimension
sizes, thread counts, range boundaries); they are modelled as Nat, and C++
truncating integer division on non-negative operands coincides with Nat
division.
-/

namespace TFLite

/-- A tensor shape descriptor: the ordered list of its dimension sizes
(RuntimeShape in the source). -/
abbrev RuntimeShape := List Nat

/-- Dims: look up one dimension size of a shape. -/
def Dims (shape : RuntimeShape) (i : Nat) : Nat := shape.getD i 0

/-- FlatSizeSkipDim: product of all dimension sizes except the one at
index skipDim. -/
def FlatSizeSkipDim (shape : RuntimeShape) (skipDim : Nat) : Nat :=
  (shape.eraseIdx skipDim).prod

/-- kMinMulPerThread, the hard-coded per-thread minimum-work constant in
HowManyConvThreads. -/
def kMinMulPerThread : Nat := 8

/-- HowManyConvThreads: thread-budget estimate for splitting the output
along thread_dim. -/
def HowManyConvThreads (output_shape filter_shape : RuntimeShape)
    (thread_dim : Nat) : Nat :=
  let output_units := Dims output_shape thread_dim
  let filter_height := Dims filter_shape 1
  let filter_width := Dims filter_shape 2
  let num_mul_per_unit :=
    FlatSizeSkipDim output_shape thread_dim * filter_height * filter_width
  let min_units_per_thread := kMinMulPerThread / num_mul_per_unit + 1
  output_units / min_units_per_thread

/-- The partitioning loop of DepthwiseConv: starting from a given start
index, emit one half-open range per remaining thread, where each range ends
at start + (thread_dim_size - start) / threads_remaining, and the next
range begins where this one ended.  With threads_remaining = thread_count - i,
this is exactly the loop body of the source. -/
def partitionRanges (thread_dim_size : Nat) : Nat → Nat → List (Nat × Nat)
  | _, 0 => []
  | thread_start, k + 1 =>
    let thread_end :=
      thread_start + (thread_dim_size - thread_start) / (k + 1)
    (thread_start, thread_end) ::
      partitionRanges thread_dim_size thread_end k

/-- The split-dimension selection of DepthwiseConv: compare the batch and
row thread estimates; strict-greater on batch picks batch, otherwise row.
Returns (thread_dim, thread_dim_size, thread_count before clamping). -/
def DepthwiseConvThreadSelection (output_shape filter_shape : RuntimeShape) :
    Nat × Nat × Nat :=
  let output_batches := Dims output_shape 0
  let output_height := Dims output_shape 1
  let thread_count_batch := HowManyConvThreads output_shape filter_shape 0
  let thread_count_row := HowManyConvThreads output_shape filter_shape 1
  if thread_count_batch > thread_count_row then
    (0, output_batches, thread_count_batch)
  else
    (1, output_height, thread_count_row)

/-- The clamping of the selected thread count in DepthwiseConv: clamp to
[1, max_threads] via max(1, min(thread_count, max_threads)), then cap at 2
when the element type is a floating-point type. -/
def FinalThreadCount (output_shape filter_shape : RuntimeShape)
    (max_threads : Nat) (isFloat : Bool) : Nat :=
  let thread_count := (DepthwiseConvThreadSelection output_shape filter_shape).2.2
  let clamped := max 1 (min thread_count max_threads)
  if isFloat then min clamped 2 else clamped

/-- DepthwiseConvWorkerTask: the immutable work unit.  T is the element
buffer type, TS the bias buffer type, P the parameter bundle type; the
source holds these by reference, modelled as plain fields. -/
structure DepthwiseConvWorkerTask (T TS P : Type) where
  params : P
  input_shape : RuntimeShape
  input_data : T
  filter_shape : RuntimeShape
  filter_data : T
  bias_shape : RuntimeShape
  bias_data : TS
  output_shape : RuntimeShape
  output_data : T
  thread_start : Nat
  thread_end : Nat
  thread_dim : Nat

/-- The observable dispatch decision of DepthwiseConv: either one direct
call of DepthwiseConvImpl with the given (thread_start, thread_end,
thread_dim), or a single call of the parallel executor on the given list
of worker tasks. -/
inductive DepthwiseConvCall (T TS P : Type) where
  | single (thread_start thread_end thread_dim : Nat)
  | multi (tasks : List (DepthwiseConvWorkerTask T TS P))

/-- DepthwiseConv: the dispatcher.  Selects the split dimension and the
final thread count; with thread_count = 1 it calls the kernel once over
the full row range, otherwise it builds one task per partition range and
hands the whole list to the executor in one call. -/
def DepthwiseConv {T TS P : Type} (params : P) (input_shape : RuntimeShape)
    (input_data : T) (filter_shape : RuntimeShape) (filter_data : T)
    (bias_shape : RuntimeShape) (bias_data : TS)
    (output_shape : RuntimeShape) (output_data : T)
    (max_threads : Nat) (isFloat : Bool) : DepthwiseConvCall T TS P :=
  let output_height := Dims output_shape 1
  let sel := DepthwiseConvThreadSelection output_shape filter_shape
  let thread_dim := sel.1
  let thread_dim_size := sel.2.1
  let thread_count := FinalThreadCount output_shape filter_shape max_threads isFloat
  if thread_count = 1 then
    .single 0 output_height 1
  else
    .multi ((partitionRanges thread_dim_size 0 thread_count).map fun r =>
      ⟨params, input_shape, input_data, filter_shape, filter_data, bias_shape,
        bias_data, output_shape, output_data, r.1, r.2, thread_dim⟩)

/-- ChainFrom a b rs: the ranges rs form a contiguous chain of half-open
intervals from a to b, each with start ≤ end. -/
def ChainFrom (a b : Nat) : List (Nat × Nat) → Prop
  | [] => a = b
  | r :: rest => r.1 = a ∧ a ≤ r.2 ∧ ChainFrom r.2 b rest

/-- The partitioning loop always emits exactly as many ranges as there are
threads remaining. -/
theorem partitionRanges_length (n : Nat) :
    ∀ (k s : Nat), (partitionRanges n s k).length = k := by
  intro k
  induction k with
  | zero => intro s; rfl
  | succ k ih => intro s; simp [partitionRanges, ih]

/-- The ranges emitted when at least one thread remains chain contiguously
from the current start all the way to the dimension size. -/
theorem chainFrom_partitionRanges (n : Nat) :
    ∀ (k s : Nat), s ≤ n → ChainFrom s n (partitionRanges n s (k + 1)) := by
  intro k
  induction k with
  | zero =>
    intro s hs
    refine ⟨rfl, Nat.le_add_right _ _, ?_⟩
    show s + (n - s) / 1 = n
    rw [Nat.div_one, Nat.add_sub_cancel' hs]
  | succ k ih =>
    intro s hs
    refine ⟨rfl, Nat.le_add_right _ _, ?_⟩
    apply ih
    have h1 : (n - s) / (k + 1 + 1) ≤ n - s := Nat.div_le_self _ _
    omega

/-- Every range in a chain starting at a has its start at or above a. -/
theorem chainFrom_le_start {b : Nat} :
    ∀ {l : List (Nat × Nat)} {a : Nat}, ChainFrom a b l → ∀ r ∈ l, a ≤ r.1 := by
  intro l
  induction l with
  | nil => intro a _ r hr; cases hr
  | cons x rest ih =>
    intro a h r hr
    obtain ⟨hx, hax, hrest⟩ := h
    rcases List.mem_cons.mp hr with hr | hr
    · subst hr; exact hx.ge
    · exact le_trans hax (ih hrest r hr)

/-- A contiguous chain is pairwise non-overlapping: every earlier range ends
at or before every later range starts. -/
theorem chainFrom_pairwise {b : Nat} :
    ∀ {l : List (Nat × Nat)} {a : Nat}, ChainFrom a b l →
      l.Pairwise (fun r1 r2 => r1.2 ≤ r2.1) := by
  intro l
  induction l with
  | nil => intro a _; exact List.Pairwise.nil
  | cons x rest ih =>
    intro a h
    obtain ⟨hx, hax, hrest⟩ := h
    exact List.Pairwise.cons (fun r hr => chainFrom_le_start hrest r hr) (ih hrest)

/-- Dividing r by k + 1 when r ≥ k + 1 leaves at least k elements behind. -/
theorem div_succ_add_le (r k : Nat) (h : k + 1 ≤ r) : r / (k + 1) + k ≤ r := by
  have hd : 1 ≤ r / (k + 1) := (Nat.one_le_div_iff (Nat.succ_pos k)).mpr h
  have h2 : r / (k + 1) * (k + 1) ≤ r := Nat.div_mul_le_self r (k + 1)
  have h3 : k ≤ r / (k + 1) * k := Nat.le_mul_of_pos_left k hd
  nlinarith

/-- When the remaining extent is at least the number of remaining threads,
every emitted range is non-empty. -/
theorem partitionRanges_pos (n : Nat) :
    ∀ (k s : Nat), s + k ≤ n → ∀ r ∈ partitionRanges n s k, r.1 < r.2 := by
  intro k
  induction k with
  | zero => intro s _ r hr; cases hr
  | succ k ih =>
    intro s hs r hr
    simp only [partitionRanges] at hr
    rcases List.mem_cons.mp hr with hr | hr
    · subst hr
      have h1 : 1 ≤ (n - s) / (k + 1) :=
        (Nat.one_le_div_iff (Nat.succ_pos k)).mpr (by omega)
      show s < s + (n - s) / (k + 1)
      omega
    · apply ih (s + (n - s) / (k + 1)) _ r hr
      have := div_succ_add_le (n - s) k (by omega)
      omega

/-- The thread estimate never exceeds the size of the candidate dimension,
because the divisor 8 / num_mul_per_unit + 1 is at least 1. -/
theorem howManyConvThreads_le_units (o f : RuntimeShape) (d : Nat) :
    HowManyConvThreads o f d ≤ Dims o d :=
  Nat.div_le_self _ _

/-- The unclamped selected thread count never exceeds the selected
dimension's size. -/
theorem selection_count_le_size (o f : RuntimeShape) :
    (DepthwiseConvThreadSelection o f).2.2 ≤ (DepthwiseConvThreadSelection o f).2.1 := by
  simp only [DepthwiseConvThreadSelection]
  split
  · exact howManyConvThreads_le_units o f 0
  · exact howManyConvThreads_le_units o f 1

/-- When the clamped-and-capped thread count exceeds 1, it is bounded by the
unclamped selected estimate. -/
theorem finalThreadCount_le_selected (o f : RuntimeShape) (mt : Nat) (b : Bool)
    (h : 1 < FinalThreadCount o f mt b) :
    FinalThreadCount o f mt b ≤ (DepthwiseConvThreadSelection o f).2.2 := by
  simp only [FinalThreadCount] at h ⊢
  cases b <;> simp only [Bool.false_eq_true, if_false, if_true] at h ⊢ <;> omega

/-- C1: for every thread_count ≥ 1 and every dimension_size, the partitioning
loop of DepthwiseConv produces exactly thread_count half-open ranges that
chain contiguously from 0 to dimension_size (each range's end is the next
range's start, every start ≤ end) and are pairwise non-overlapping in
increasing order — they partition [0, dimension_size) exactly, even when
dimension_size < thread_count. -/
theorem C1_partition_exact (thread_count dimension_size : Nat)
    (h : 1 ≤ thread_count) :
    (partitionRanges dimension_size 0 thread_count).length = thread_count ∧
    ChainFrom 0 dimension_size (partitionRanges dimension_size 0 thread_count) ∧
    (partitionRanges dimension_size 0 thread_count).Pairwise
      (fun r1 r2 => r1.2 ≤ r2.1) := by
  obtain ⟨k, rfl⟩ : ∃ k, thread_count = k + 1 := ⟨thread_count - 1, by omega⟩
  have hc := chainFrom_partitionRanges dimension_size k 0 (Nat.zero_le _)
  exact ⟨partitionRanges_length _ _ _, hc, chainFrom_pairwise hc⟩

/-- C1 witness: the partition of [0, 10) into 3 ranges. -/
theorem C1_partition_exact_witness :
    1 ≤ 3 ∧
    ((partitionRanges 10 0 3).length = 3 ∧
     ChainFrom 0 10 (partitionRanges 10 0 3) ∧
     (partitionRanges 10 0 3).Pairwise (fun r1 r2 => r1.2 ≤ r2.1)) :=
  ⟨by decide, C1_partition_exact 3 10 (by decide)⟩

/-- C2 counterexample: with thread_count = 3 and dimension_size = 10 the
partitioning formula does NOT produce [0,4), [4,7), [7,10). -/
theorem C2_scenario_counterexample :
    partitionRanges 10 0 3 ≠ [(0, 4), (4, 7), (7, 10)] := by decide

/-- C2 amended: with thread_count = 3 and dimension_size = 10 the formula
end = start + (dimension_size - start) / (thread_count - i) produces exactly
the ranges [0,3), [3,6), [6,10), distributing the remainder across the
latest ranges. -/
theorem C2_scenario_ranges :
    partitionRanges 10 0 3 = [(0, 3), (3, 6), (6, 10)] := by decide

/-- C3: with work_per_unit = FlatSizeSkipDim(output_shape, d) * filter_height
* filter_width ≥ 1, the thread-budget estimator returns exactly
Dims(d) / (8 / work_per_unit + 1) under integer division with threshold
constant 8; the result is a Nat, so 0 is a valid outcome, not an error. -/
theorem C3_estimator_formula (output_shape filter_shape : RuntimeShape) (d : Nat)
    (h : 1 ≤ FlatSizeSkipDim output_shape d * Dims filter_shape 1 *
      Dims filter_shape 2) :
    HowManyConvThreads output_shape filter_shape d =
      Dims output_shape d /
        (8 / (FlatSizeSkipDim output_shape d * Dims filter_shape 1 *
          Dims filter_shape 2) + 1) := rfl

/-- C3 witness at the spec's scenario shapes. -/
theorem C3_estimator_formula_witness :
    1 ≤ FlatSizeSkipDim [1, 10, 10, 8] 1 * Dims [1, 3, 3, 8] 1 *
      Dims [1, 3, 3, 8] 2 ∧
    HowManyConvThreads [1, 10, 10, 8] [1, 3, 3, 8] 1 =
      Dims [1, 10, 10, 8] 1 /
        (8 / (FlatSizeSkipDim [1, 10, 10, 8] 1 * Dims [1, 3, 3, 8] 1 *
          Dims [1, 3, 3, 8] 2) + 1) :=
  ⟨by decide, C3_estimator_formula [1, 10, 10, 8] [1, 3, 3, 8] 1 (by decide)⟩

/-- C4: whenever the batch-dimension estimate equals the row-dimension
estimate the dispatcher selects the row dimension (thread_dim = 1), and the
batch dimension is selected only when its estimate is strictly greater. -/
theorem C4_tie_break (output_shape filter_shape : RuntimeShape) :
    (HowManyConvThreads output_shape filter_shape 0 =
        HowManyConvThreads output_shape filter_shape 1 →
      (DepthwiseConvThreadSelection output_shape filter_shape).1 = 1) ∧
    ((DepthwiseConvThreadSelection output_shape filter_shape).1 = 0 →
      HowManyConvThreads output_shape filter_shape 1 <
        HowManyConvThreads output_shape filter_shape 0) := by
  constructor
  · intro h
    simp only [DepthwiseConvThreadSelection]
    rw [if_neg (by omega)]
  · intro h
    by_contra hn
    simp only [DepthwiseConvThreadSelection] at h
    rw [if_neg (by omega)] at h
    exact absurd h one_ne_zero

/-- C4 witness: equal estimates on an all-ones shape select the row
dimension. -/
theorem C4_tie_break_witness :
    HowManyConvThreads [1, 1, 1, 1] [1, 1, 1, 1] 0 =
      HowManyConvThreads [1, 1, 1, 1] [1, 1, 1, 1] 1 ∧
    (DepthwiseConvThreadSelection [1, 1, 1, 1] [1, 1, 1, 1]).1 = 1 :=
  ⟨by decide, (C4_tie_break [1, 1, 1, 1] [1, 1, 1, 1]).1 (by decide)⟩

/-- C5: for a floating-point element type the final selected thread count
never exceeds 2, for every shape pair and every hardware ceiling; a
non-floating-point element type is not subject to this cap, witnessed by a
non-float input on which the final count reaches 4. -/
theorem C5_float_cap :
    (∀ (output_shape filter_shape : RuntimeShape) (max_threads : Nat),
      FinalThreadCount output_shape filter_shape max_threads true ≤ 2) ∧
    2 < FinalThreadCount [1, 100, 1, 1] [1, 1, 1, 1] 4 false := by
  refine ⟨fun o f mt => ?_, by decide⟩
  simp only [FinalThreadCount, if_true]
  omega

/-- C6 counterexample: the hardware ceiling may be 0 (the spec allows any
non-negative value), and there the final thread count is 1, which exceeds
the supplied ceiling. -/
theorem C6_ceiling_counterexample :
    ¬ (FinalThreadCount [1, 10, 10, 8] [1, 3, 3, 8] 0 false ≤ 0) := by decide

/-- C6 amended: the final selected thread count is always ≥ 1, and whenever
the hardware ceiling is ≥ 1 it never exceeds the ceiling; with ceiling 0 the
clamp max(1, min(thread_count, max_threads)) still yields 1, above the
ceiling. -/
theorem C6_ceiling_respect (output_shape filter_shape : RuntimeShape)
    (max_threads : Nat) (isFloat : Bool) :
    1 ≤ FinalThreadCount output_shape filter_shape max_threads isFloat ∧
    (1 ≤ max_threads →
      FinalThreadCount output_shape filter_shape max_threads isFloat ≤
        max_threads) := by
  simp only [FinalThreadCount]
  cases isFloat <;>
    simp only [Bool.false_eq_true, if_false, if_true] <;>
    exact ⟨by omega, fun h => by omega⟩

/-- C6 witness: with ceiling 4 the final count lies in [1, 4]. -/
theorem C6_ceiling_respect_witness :
    1 ≤ FinalThreadCount [1, 10, 10, 8] [1, 3, 3, 8] 4 false ∧
    FinalThreadCount [1, 10, 10, 8] [1, 3, 3, 8] 4 false ≤ 4 :=
  ⟨(C6_ceiling_respect [1, 10, 10, 8] [1, 3, 3, 8] 4 false).1,
   (C6_ceiling_respect [1, 10, 10, 8] [1, 3, 3, 8] 4 false).2 (by decide)⟩

/-- C7: whenever the final selected thread count equals 1, DepthwiseConv
invokes the single-threaded kernel exactly once, directly, with
thread_start = 0, thread_end = output_height and thread_dim = 1,
constructing no worker tasks and never calling the parallel executor. -/
theorem C7_single_direct {T TS P : Type} (params : P)
    (input_shape : RuntimeShape) (input_data : T)
    (filter_shape : RuntimeShape) (filter_data : T)
    (bias_shape : RuntimeShape) (bias_data : TS)
    (output_shape : RuntimeShape) (output_data : T)
    (max_threads : Nat) (isFloat : Bool)
    (h : FinalThreadCount output_shape filter_shape max_threads isFloat = 1) :
    DepthwiseConv params input_shape input_data filter_shape filter_data
        bias_shape bias_data output_shape output_data max_threads isFloat =
      .single 0 (Dims output_shape 1) 1 := by
  simp only [DepthwiseConv]
  rw [if_pos h]

/-- C7 witness: a 1×1×1×1 convolution runs single-threaded over the full
row range. -/
theorem C7_single_direct_witness :
    FinalThreadCount [1, 1, 1, 1] [1, 1, 1, 1] 4 false = 1 ∧
    @DepthwiseConv Nat Nat Nat 0 [1, 1, 1, 1] 0
        [1, 1, 1, 1] 0 [1, 1, 1, 1] 0 [1, 1, 1, 1] 0 4 false =
      .single 0 (Dims [1, 1, 1, 1] 1) 1 :=
  ⟨by decide,
   C7_single_direct 0 [1, 1, 1, 1] 0 [1, 1, 1, 1] 0 [1, 1, 1, 1] 0
     [1, 1, 1, 1] 0 4 false (by decide)⟩

/-- C8: whenever the final selected thread count exceeds 1, DepthwiseConv
hands the parallel executor, in a single call, a list of exactly
thread_count worker tasks, all holding the same params, shapes and buffer
references and differing only in (thread_start, thread_end, thread_dim)
drawn from the partition of the selected dimension. -/
theorem C8_multi_tasks {T TS P : Type} (params : P)
    (input_shape : RuntimeShape) (input_data : T)
    (filter_shape : RuntimeShape) (filter_data : T)
    (bias_shape : RuntimeShape) (bias_data : TS)
    (output_shape : RuntimeShape) (output_data : T)
    (max_threads : Nat) (isFloat : Bool)
    (h : 1 < FinalThreadCount output_shape filter_shape max_threads isFloat) :
    ∃ tasks,
      DepthwiseConv params input_shape input_data filter_shape filter_data
          bias_shape bias_data output_shape output_data max_threads isFloat =
        .multi tasks ∧
      tasks.length =
        FinalThreadCount output_shape filter_shape max_threads isFloat ∧
      ∀ t ∈ tasks,
        t.params = params ∧ t.input_shape = input_shape ∧
        t.input_data = input_data ∧ t.filter_shape = filter_shape ∧
        t.filter_data = filter_data ∧ t.bias_shape = bias_shape ∧
        t.bias_data = bias_data ∧ t.output_shape = output_shape ∧
        t.output_data = output_data ∧
        t.thread_dim =
          (DepthwiseConvThreadSelection output_shape filter_shape).1 := by
  refine
    ⟨(partitionRanges (DepthwiseConvThreadSelection output_shape filter_shape).2.1
        0 (FinalThreadCount output_shape filter_shape max_threads isFloat)).map
      fun r =>
        ⟨params, input_shape, input_data, filter_shape, filter_data, bias_shape,
          bias_data, output_shape, output_data, r.1, r.2,
          (DepthwiseConvThreadSelection output_shape filter_shape).1⟩,
     ?_, ?_, ?_⟩
  · simp only [DepthwiseConv]
    rw [if_neg (by omega)]
  · rw [List.length_map, partitionRanges_length]
  · intro t ht
    rw [List.mem_map] at ht
    obtain ⟨r, _, rfl⟩ := ht
    exact ⟨rfl, rfl, rfl, rfl, rfl, rfl, rfl, rfl, rfl, rfl⟩

/-- C8 witness: the spec's scenario shapes with ceiling 4 and a non-float
element type dispatch 4 worker tasks. -/
theorem C8_multi_tasks_witness :
    1 < FinalThreadCount [1, 10, 10, 8] [1, 3, 3, 8] 4 false ∧
    ∃ tasks,
      @DepthwiseConv Nat Nat Nat 0 [1, 12, 12, 8] 0
          [1, 3, 3, 8] 0 [1, 1, 1, 8] 0 [1, 10, 10, 8] 0 4 false =
        .multi tasks ∧
      tasks.length = FinalThreadCount [1, 10, 10, 8] [1, 3, 3, 8] 4 false ∧
      ∀ t ∈ tasks,
        t.params = 0 ∧ t.input_shape = [1, 12, 12, 8] ∧
        t.input_data = 0 ∧ t.filter_shape = [1, 3, 3, 8] ∧
        t.filter_data = 0 ∧ t.bias_shape = [1, 1, 1, 8] ∧
        t.bias_data = 0 ∧ t.output_shape = [1, 10, 10, 8] ∧
        t.output_data = 0 ∧
        t.thread_dim =
          (DepthwiseConvThreadSelection [1, 10, 10, 8] [1, 3, 3, 8]).1 :=
  ⟨by decide,
   C8_multi_tasks 0 [1, 12, 12, 8] 0 [1, 3, 3, 8] 0 [1, 1, 1, 8] 0
     [1, 10, 10, 8] 0 4 false (by decide)⟩

/-- C9: whenever num_mul_per_unit ≥ 1 the divisor 8 / num_mul_per_unit + 1
is at least 1, so the estimator's final division is well-defined and its
result never exceeds the size of the candidate split dimension. -/
theorem C9_estimator_safe (output_shape filter_shape : RuntimeShape) (d : Nat)
    (h : 1 ≤ FlatSizeSkipDim output_shape d * Dims filter_shape 1 *
      Dims filter_shape 2) :
    1 ≤ 8 / (FlatSizeSkipDim output_shape d * Dims filter_shape 1 *
      Dims filter_shape 2) + 1 ∧
    HowManyConvThreads output_shape filter_shape d ≤ Dims output_shape d :=
  ⟨Nat.le_add_left 1 _, howManyConvThreads_le_units output_shape filter_shape d⟩

/-- C9 witness at the spec's scenario shapes. -/
theorem C9_estimator_safe_witness :
    1 ≤ FlatSizeSkipDim [1, 10, 10, 8] 1 * Dims [1, 3, 3, 8] 1 *
      Dims [1, 3, 3, 8] 2 ∧
    (1 ≤ 8 / (FlatSizeSkipDim [1, 10, 10, 8] 1 * Dims [1, 3, 3, 8] 1 *
      Dims [1, 3, 3, 8] 2) + 1 ∧
     HowManyConvThreads [1, 10, 10, 8] [1, 3, 3, 8] 1 ≤
       Dims [1, 10, 10, 8] 1) :=
  ⟨by decide, C9_estimator_safe [1, 10, 10, 8] [1, 3, 3, 8] 1 (by decide)⟩

/-- C10: under non-degenerate shapes (FlatSizeSkipDim of the output over
either candidate dimension ≥ 1), whenever the multi-threaded branch runs the
final thread count never exceeds the selected dimension's size, and every
partition range handed to a worker task is non-empty. -/
theorem C10_nonempty_ranges (output_shape filter_shape : RuntimeShape)
    (max_threads : Nat) (isFloat : Bool)
    (h0 : 1 ≤ FlatSizeSkipDim output_shape 0)
    (h1 : 1 ≤ FlatSizeSkipDim output_shape 1)
    (h : 1 < FinalThreadCount output_shape filter_shape max_threads isFloat) :
    FinalThreadCount output_shape filter_shape max_threads isFloat ≤
      (DepthwiseConvThreadSelection output_shape filter_shape).2.1 ∧
    ∀ r ∈ partitionRanges
        (DepthwiseConvThreadSelection output_shape filter_shape).2.1 0
        (FinalThreadCount output_shape filter_shape max_threads isFloat),
      r.1 < r.2 := by
  have hle := finalThreadCount_le_selected output_shape filter_shape
    max_threads isFloat h
  have hsz := selection_count_le_size output_shape filter_shape
  refine ⟨le_trans hle hsz, ?_⟩
  exact partitionRanges_pos _ _ 0 (by omega)

/-- C10 witness at the spec's scenario shapes with ceiling 4. -/
theorem C10_nonempty_ranges_witness :
    1 ≤ FlatSizeSkipDim [1, 10, 10, 8] 0 ∧
    1 ≤ FlatSizeSkipDim [1, 10, 10, 8] 1 ∧
    1 < FinalThreadCount [1, 10, 10, 8] [1, 3, 3, 8] 4 false ∧
    (FinalThreadCount [1, 10, 10, 8] [1, 3, 3, 8] 4 false ≤
       (DepthwiseConvThreadSelection [1, 10, 10, 8] [1, 3, 3, 8]).2.1 ∧
     ∀ r ∈ partitionRanges
         (DepthwiseConvThreadSelection [1, 10, 10, 8] [1, 3, 3, 8]).2.1 0
         (FinalThreadCount [1, 10, 10, 8] [1, 3, 3, 8] 4 false),
       r.1 < r.2) :=
  ⟨by decide, by decide, by decide,
   C10_nonempty_ranges [1, 10, 10, 8] [1, 3, 3, 8] 4 false (by decide)
     (by decide) (by decide)⟩

end TFLite
